/-
Verification of the EmailModal component (syskomp-shared-components).

The component's behavioural core is embedded shallowly: the pure string
composition functions (inquiry number, subject, body, clipboard payload,
mailto URI) are translated into Lean functions, the stateful controller
into an explicit state machine over `ModalState`, and the clipboard
interaction into a function of an explicit `ClipboardOutcome`.
-/
import Mathlib

namespace EmailModal

/-! ## Decimal rendering of JavaScript numbers

`String(n)` for a non-negative integer is its decimal representation.
The digit list is computed with an explicit fuel argument (fuel `n`
always suffices) so that the definition is structurally recursive. -/

/-- Big-endian decimal digits of `n`, with explicit fuel. -/
def decDigitsAux : Nat → Nat → List Nat
  | 0, n => [n % 10]
  | fuel + 1, n => if n < 10 then [n] else decDigitsAux fuel (n / 10) ++ [n % 10]

/-- Big-endian decimal digits of `n`. -/
def decDigits (n : Nat) : List Nat := decDigitsAux n n

/-- Character for a decimal digit. -/
def digitChar (d : Nat) : Char := Char.ofNat (48 + d)

/-- Decimal string representation, i.e. JavaScript `String(n)` for `n : Nat`. -/
def decRepr (n : Nat) : String := String.mk ((decDigits n).map digitChar)

/-- JavaScript `s.padStart(len, c)`. -/
def jsPadStart (s : String) (len : Nat) (c : Char) : String :=
  String.mk (List.replicate (len - s.length) c) ++ s

/-! ## The mount timestamp

A JavaScript `Date` is modelled by the six accessor values the source
reads; `getMonth` is 0-based, exactly as in JavaScript. -/

structure JSDate where
  getFullYear : Nat
  getMonth : Nat
  getDate : Nat
  getHours : Nat
  getMinutes : Nat
  getSeconds : Nat

/-- The component assumes the host gives it a real calendar moment:
four-digit year and in-range month/day/hour/minute/second fields. -/
def ValidJSDate (d : JSDate) : Prop :=
  1000 ≤ d.getFullYear ∧ d.getFullYear < 10000 ∧
  d.getMonth < 12 ∧ 1 ≤ d.getDate ∧ d.getDate ≤ 31 ∧
  d.getHours < 24 ∧ d.getMinutes < 60 ∧ d.getSeconds < 60

instance (d : JSDate) : Decidable (ValidJSDate d) := by
  unfold ValidJSDate; infer_instance

/-- Function `generateInquiryNumber` from EmailModal.tsx: format `YYYYMMDD-HHMMSS`. -/
def generateInquiryNumber (now : JSDate) : String :=
  let year := decRepr now.getFullYear
  let month := jsPadStart (decRepr (now.getMonth + 1)) 2 (digitChar 0)
  let day := jsPadStart (decRepr now.getDate) 2 (digitChar 0)
  let hours := jsPadStart (decRepr now.getHours) 2 (digitChar 0)
  let minutes := jsPadStart (decRepr now.getMinutes) 2 (digitChar 0)
  let seconds := jsPadStart (decRepr now.getSeconds) 2 (digitChar 0)
  year ++ month ++ day ++ "-" ++ hours ++ minutes ++ seconds

/-! ## Reading the inquiry number back (for claim C4) -/

/-- Numeric value of a digit-character list (most significant first). -/
def parseNatChars (l : List Char) : Nat :=
  l.foldl (fun a c => a * 10 + (c.toNat - 48)) 0

/-- Regex `^\d{8}-\d{6}$`: 15 characters, eight digits, a dash, six digits. -/
def inquiryFormatOk (s : String) : Bool :=
  decide (s.data.length = 15) && (s.data.take 8).all Char.isDigit &&
    decide ((s.data.drop 8).take 1 = [Char.ofNat 45]) &&
    ((s.data.drop 9).all Char.isDigit)

/-! ## Subject composition

JavaScript `a || b` on strings is truthiness-based: the empty string is
falsy. `jsOrOpt a b` is `a || b` where `a` is a possibly-undefined
string prop, `optTruthy` is `if (a)` on such a prop. -/

/-- Truthiness of an optional string prop: defined and non-empty. -/
def optTruthy : Option String → Bool
  | none => false
  | some s => !(s == "")

/-- JavaScript `a || b` for a possibly-undefined string `a`. -/
def jsOrOpt (a : Option String) (b : String) : String :=
  match a with
  | none => b
  | some s => if s == "" then b else s

/-- Memo `emailSubject` from EmailModal.tsx:
`if (subjectText) return (subjectTitle || title) + " " + subjectText + " #" + inquiryNumber;`
`return subject || "";` -/
def emailSubject (subjectTitle subjectText : Option String) (title : String)
    (subject : Option String) (inquiryNumber : String) : String :=
  if optTruthy subjectText then
    jsOrOpt subjectTitle title ++ " " ++ subjectText.getD "" ++ " #" ++ inquiryNumber
  else
    jsOrOpt subject ""

/-! ## Component props and state -/

structure ModalProps where
  title : String
  emailTo : String
  subject : Option String
  subjectTitle : Option String
  subjectText : Option String
  bodyWithoutContact : String

structure ModalState where
  contactName : String
  contactPhone : String
  contactCompany : String
  copySuccess : Bool
  inquiryNumber : String
deriving DecidableEq

/-- State after mount: contact fields empty, no copy feedback, inquiry
number generated once from the mount moment (`useMemo` with `[]` deps). -/
def initialState (mountTime : JSDate) : ModalState :=
  ⟨"", "", "", false, generateInquiryNumber mountTime⟩

/-- The subject shown and exported for a given props/state pair. -/
def emailSubjectOf (p : ModalProps) (s : ModalState) : String :=
  emailSubject p.subjectTitle p.subjectText p.title p.subject s.inquiryNumber

/-- Derived `body` from EmailModal.tsx:
template literal `${bodyWithoutContact}\n\nName: ${contactName}\nTelefon: ${contactPhone}\nFirma: ${contactCompany}`. -/
def emailBody (p : ModalProps) (s : ModalState) : String :=
  p.bodyWithoutContact ++ "\n\nName: " ++ s.contactName ++ "\nTelefon: " ++
    s.contactPhone ++ "\nFirma: " ++ s.contactCompany

/-- String `fullEmailText` built in `handleCopyText`. -/
def fullEmailText (p : ModalProps) (s : ModalState) : String :=
  "An: " ++ p.emailTo ++ "\nBetreff: " ++ emailSubjectOf p s ++ "\n\n" ++ emailBody p s

/-! ## The clipboard interaction (`handleCopyText`)

The environment's contribution to one invocation is captured by a
`ClipboardOutcome`: either `navigator.clipboard` exists and `writeText`
resolves or rejects, or the legacy `document.execCommand("copy")`
fallback runs and returns a boolean or throws. -/

inductive ClipboardOutcome
  | apiWriteOk
  | apiWriteThrow (msg : String)
  | execOk
  | execFalse
  | execThrow (msg : String)
deriving DecidableEq

/-- The body of the `try` block up to the `setCopySuccess` call: the
flag value passed to `setCopySuccess`, or the thrown error. -/
def copyAttempt : ClipboardOutcome → Except String Bool
  | .apiWriteOk => .ok true
  | .apiWriteThrow m => .error m
  | .execOk => .ok true
  | .execFalse => .ok false
  | .execThrow m => .error m

/-- Outcomes in which the copy did not reach the clipboard. -/
def copyFailed : ClipboardOutcome → Bool
  | .apiWriteOk => false
  | .apiWriteThrow _ => true
  | .execOk => false
  | .execFalse => true
  | .execThrow _ => true

/-- Effect of one `handleCopyText` invocation: the queued
`setCopySuccess` value (if any), whether the 2-second revert timer was
scheduled, and the console error log. -/
structure CopyResult where
  flagSet : Option Bool
  timerScheduled : Bool
  log : List String
deriving DecidableEq

/-- Handler `handleCopyText` from EmailModal.tsx. `staleCopySuccess` is the
`copySuccess` value captured by the handler's closure at render time:
the `if (copySuccess)` guard reads it, not the value just queued by
`setCopySuccess`. The surrounding `try`/`catch` makes the handler total
(`.ok` for every outcome). -/
def handleCopyText (staleCopySuccess : Bool) (out : ClipboardOutcome) :
    Except String CopyResult :=
  match copyAttempt out with
  | .ok b => .ok ⟨some b, staleCopySuccess, []⟩
  | .error m => .ok ⟨none, false, ["Copy to clipboard failed: " ++ m]⟩

/-! ## The controller state machine -/

inductive ModalEvent
  | setName (v : String)
  | setPhone (v : String)
  | setCompany (v : String)
  | copyClick (out : ClipboardOutcome)
  | revertTimer

/-- One state transition of the controller. `copyClick` applies the
queued `setCopySuccess` update of `handleCopyText` (if any);
`revertTimer` is the 2-second timer callback `setCopySuccess(false)`. -/
def step (s : ModalState) : ModalEvent → ModalState
  | .setName v => { s with contactName := v }
  | .setPhone v => { s with contactPhone := v }
  | .setCompany v => { s with contactCompany := v }
  | .copyClick out =>
    match handleCopyText s.copySuccess out with
    | .ok r => { s with copySuccess := r.flagSet.getD s.copySuccess }
    | .error _ => s
  | .revertTimer => { s with copySuccess := false }

/-- Folding a sequence of events over the mounted state. -/
def runEvents (mountTime : JSDate) (evs : List ModalEvent) : ModalState :=
  evs.foldl step (initialState mountTime)

/-! ## URI component encoding and the mailto link

`encodeURIComponent` per ECMA-262: characters in the unreserved set
`A-Z a-z 0-9 - _ . ! ~ * ' ( )` pass through; every other character is
replaced by the uppercase-hex percent-encoding of its UTF-8 bytes. -/

/-- Uppercase hexadecimal digit. -/
def hexDigitChar (n : Nat) : Char :=
  if n < 10 then Char.ofNat (48 + n) else Char.ofNat (55 + n)

/-- UTF-8 bytes of a code point. -/
def utf8Bytes (n : Nat) : List Nat :=
  if n < 128 then [n]
  else if n < 2048 then [192 + n / 64, 128 + n % 64]
  else if n < 65536 then [224 + n / 4096, 128 + (n / 64) % 64, 128 + n % 64]
  else [240 + n / 262144, 128 + (n / 4096) % 64, 128 + (n / 64) % 64, 128 + n % 64]

/-- Percent-escape `%XX` for one byte. -/
def percentByte (b : Nat) : List Char :=
  [Char.ofNat 37, hexDigitChar (b / 16), hexDigitChar (b % 16)]

/-- The `encodeURIComponent` unreserved set. -/
def uriUnreservedChar (c : Char) : Bool :=
  c.isAlpha || c.isDigit ||
    (c ∈ [Char.ofNat 45, Char.ofNat 95, Char.ofNat 46, Char.ofNat 33,
          Char.ofNat 126, Char.ofNat 42, Char.ofNat 39, Char.ofNat 40, Char.ofNat 41])

/-- Encoding of one character. -/
def encodeChar (c : Char) : List Char :=
  if uriUnreservedChar c then [c] else (utf8Bytes c.toNat).foldr (fun b acc => percentByte b ++ acc) []

/-- ECMA-262 `encodeURIComponent`. -/
def encodeURIComponent (s : String) : String :=
  String.mk (s.data.foldr (fun c acc => encodeChar c ++ acc) [])

/-- String `mailtoLink` built in `handleOpenEmail`. -/
def mailtoLink (p : ModalProps) (s : ModalState) : String :=
  "mailto:" ++ p.emailTo ++ "?subject=" ++ encodeURIComponent (emailSubjectOf p s) ++
    "&body=" ++ encodeURIComponent (emailBody p s)

/-! ## Parsing the clipboard payload (for claim C7)

The claim reads the payload back by splitting at the first blank line
and taking the `An: ` / `Betreff: ` header lines. -/

/-- Split a character list at the first occurrence of two consecutive
newlines; `none` when there is no blank line. -/
def splitAtBlank : List Char → Option (List Char × List Char)
  | [] => none
  | c :: rest =>
    if c = Char.ofNat 10 ∧ rest.head? = some (Char.ofNat 10) then some ([], rest.tail)
    else (splitAtBlank rest).map fun p => (c :: p.1, p.2)

/-- Split a character list into lines at single newlines. -/
def splitLines : List Char → List (List Char)
  | [] => [[]]
  | c :: rest =>
    if c = Char.ofNat 10 then [] :: splitLines rest
    else
      match splitLines rest with
      | [] => [[c]]
      | l :: ls => (c :: l) :: ls

/-- Remove an expected literal head from a character list. -/
def stripPre : List Char → List Char → Option (List Char)
  | [], l => some l
  | _ :: _, [] => none
  | p :: ps, c :: cs => if p = c then stripPre ps cs else none

/-- Parse the clipboard payload: header is everything before the first
blank line and must consist of exactly the two lines
`An: <recipient>` and `Betreff: <subject>`. -/
def parseClipboard (s : String) : Option (String × String) :=
  match splitAtBlank s.data with
  | none => none
  | some (header, _) =>
    match splitLines header with
    | [l1, l2] =>
      match stripPre "An: ".data l1, stripPre "Betreff: ".data l2 with
      | some a, some b => some (String.mk a, String.mk b)
      | _, _ => none
    | _ => none

/-- Holds (as `true`) when the string contains no newline character. -/
def noNewline (s : String) : Bool :=
  s.data.all fun c => c ≠ Char.ofNat 10

/-! ## Click propagation (for claim C9)

The JSX tree has the overlay `div` with `onClick={onClose}` and, inside
it, the modal surface `div` with `onClick={(e) => e.stopPropagation()}`.
A click event runs the handlers along the bubbling path from its target
upward until one stops propagation. -/

structure ClickHandler where
  stopsPropagation : Bool
  invokesOnClose : Bool

/-- Overlay `div`: `onClick={onClose}`. -/
def overlayHandler : ClickHandler := ⟨false, true⟩

/-- Modal surface `div`: `onClick={(e) => e.stopPropagation()}`. -/
def modalSurfaceHandler : ClickHandler := ⟨true, false⟩

inductive ClickTarget
  | modalSurface
  | backdrop

/-- Bubbling path from the click target to the root. -/
def bubblePath : ClickTarget → List ClickHandler
  | .modalSurface => [modalSurfaceHandler, overlayHandler]
  | .backdrop => [overlayHandler]

/-- Handlers actually executed while the event bubbles. -/
def handlersRun : List ClickHandler → List ClickHandler
  | [] => []
  | h :: rest => h :: (if h.stopsPropagation then [] else handlersRun rest)

/-- Number of `onClose` invocations caused by one click. -/
def onCloseCalls (path : List ClickHandler) : Nat :=
  (handlersRun path).foldl (fun n h => n + (if h.invokesOnClose then 1 else 0)) 0

/-! ## Lemmas about decimal digits -/

theorem mem_decDigitsAux_lt (fuel : Nat) : ∀ n, n ≤ fuel → ∀ d ∈ decDigitsAux fuel n, d < 10 := by
  induction fuel with
  | zero =>
    intro n _ d hd
    simp only [decDigitsAux, List.mem_singleton] at hd
    subst hd
    exact Nat.mod_lt _ (by omega)
  | succ fuel ih =>
    intro n hn d hd
    by_cases h10 : n < 10
    · simp only [decDigitsAux, if_pos h10, List.mem_singleton] at hd
      omega
    · simp only [decDigitsAux, if_neg h10, List.mem_append, List.mem_singleton] at hd
      rcases hd with hd | hd
      · exact ih (n / 10) (by omega) d hd
      · subst hd
        exact Nat.mod_lt _ (by omega)

theorem foldl_decDigitsAux (fuel : Nat) : ∀ n a, n ≤ fuel →
    (decDigitsAux fuel n).foldl (fun x d => x * 10 + d) a =
      a * 10 ^ (decDigitsAux fuel n).length + n := by
  induction fuel with
  | zero =>
    intro n a hn
    have h0 : n = 0 := by omega
    subst h0
    simp [decDigitsAux]
  | succ fuel ih =>
    intro n a hn
    by_cases h10 : n < 10
    · simp [decDigitsAux, if_pos h10]
    · have hdiv : n / 10 ≤ fuel := by
        have := Nat.div_lt_self (by omega : 0 < n) (by omega : 1 < 10)
        omega
      simp only [decDigitsAux, if_neg h10, List.foldl_append, List.foldl_cons,
        List.foldl_nil, List.length_append, List.length_singleton]
      rw [ih (n / 10) a hdiv]
      have hmod := Nat.div_add_mod n 10
      ring_nf
      omega

theorem length_decDigitsAux_one (fuel n : Nat) (hn : n < 10) :
    (decDigitsAux fuel n).length = 1 := by
  cases fuel with
  | zero => simp [decDigitsAux]
  | succ fuel => simp [decDigitsAux, if_pos hn]

theorem length_decDigitsAux (k : Nat) : ∀ fuel n, n ≤ fuel → 10 ^ k ≤ n → n < 10 ^ (k + 1) →
    (decDigitsAux fuel n).length = k + 1 := by
  induction k with
  | zero =>
    intro fuel n _ _ h2
    exact length_decDigitsAux_one fuel n (by simpa using h2)
  | succ k ih =>
    intro fuel n hfuel h1 h2
    have h10 : 10 ≤ n := le_trans (by calc 10 = 10 ^ 1 := (pow_one 10).symm
                                         _ ≤ 10 ^ (k + 1) := Nat.pow_le_pow_right (by omega) (by omega)) h1
    cases fuel with
    | zero => omega
    | succ fuel =>
      have hdle : n / 10 ≤ fuel := by
        have := Nat.div_lt_self (by omega : 0 < n) (by omega : 1 < 10)
        omega
      have hdlo : 10 ^ k ≤ n / 10 := by
        rw [Nat.le_div_iff_mul_le (by omega : 0 < 10)]
        calc 10 ^ k * 10 = 10 ^ (k + 1) := (pow_succ 10 k).symm
          _ ≤ n := h1
      have hdhi : n / 10 < 10 ^ (k + 1) := by
        rw [Nat.div_lt_iff_lt_mul (by omega : 0 < 10)]
        calc n < 10 ^ (k + 1 + 1) := h2
          _ = 10 ^ (k + 1) * 10 := pow_succ 10 (k + 1)
      simp only [decDigitsAux, if_neg (by omega : ¬ n < 10), List.length_append,
        List.length_singleton]
      rw [ih fuel (n / 10) hdle hdlo hdhi]

theorem length_decDigitsAux_two (fuel : Nat) (n : Nat) (h : n ≤ fuel)
    (h1 : 10 ≤ n) (h2 : n < 100) : (decDigitsAux fuel n).length = 2 :=
  length_decDigitsAux 1 fuel n h (by simpa using h1) (by norm_num; omega)

theorem length_decDigitsAux_four (fuel : Nat) (n : Nat) (h : n ≤ fuel)
    (h1 : 1000 ≤ n) (h2 : n < 10000) : (decDigitsAux fuel n).length = 4 :=
  length_decDigitsAux 3 fuel n h (by norm_num; omega) (by norm_num; omega)

theorem digitChar_isDigit (d : Nat) (h : d < 10) : (digitChar d).isDigit = true := by
  interval_cases d <;> decide

theorem digitChar_toNat (d : Nat) (h : d < 10) : (digitChar d).toNat = 48 + d := by
  interval_cases d <;> decide

theorem parseNatChars_map_digitChar (l : List Nat) (hl : ∀ d ∈ l, d < 10) :
    parseNatChars (l.map digitChar) = l.foldl (fun a d => a * 10 + d) 0 := by
  unfold parseNatChars
  suffices h : ∀ a, (l.map digitChar).foldl (fun x c => x * 10 + (c.toNat - 48)) a =
      l.foldl (fun x d => x * 10 + d) a from h 0
  induction l with
  | nil => intro a; rfl
  | cons d l ih =>
    intro a
    have hd : d < 10 := hl d (by simp)
    simp only [List.map_cons, List.foldl_cons, digitChar_toNat d hd]
    rw [ih (fun x hx => hl x (by simp [hx]))]
    congr 1
    omega

theorem parse_decDigits (n : Nat) : parseNatChars ((decDigits n).map digitChar) = n := by
  unfold decDigits
  rw [parseNatChars_map_digitChar _ (mem_decDigitsAux_lt n n (Nat.le_refl n)),
    foldl_decDigitsAux n n 0 (Nat.le_refl n)]
  simp

theorem decDigits_all_isDigit (n : Nat) :
    ∀ c ∈ (decDigits n).map digitChar, c.isDigit = true := by
  intro c hc
  rcases List.mem_map.mp hc with ⟨d, hd, rfl⟩
  exact digitChar_isDigit d (mem_decDigitsAux_lt n n (Nat.le_refl n) d hd)

theorem parseNatChars_cons_zero (l : List Char) :
    parseNatChars (digitChar 0 :: l) = parseNatChars l := by
  simp [parseNatChars, digitChar]

/-- The two-digit zero-padded blocks of the inquiry number: exactly two
characters, all digits, parsing back to the padded value. -/
theorem pad2_spec (n : Nat) (h : n < 100) :
    (jsPadStart (decRepr n) 2 (digitChar 0)).data.length = 2 ∧
    (∀ c ∈ (jsPadStart (decRepr n) 2 (digitChar 0)).data, c.isDigit = true) ∧
    parseNatChars (jsPadStart (decRepr n) 2 (digitChar 0)).data = n := by
  have hdata : (jsPadStart (decRepr n) 2 (digitChar 0)).data =
      List.replicate (2 - (decDigits n).length) (digitChar 0) ++ (decDigits n).map digitChar := by
    simp [jsPadStart, decRepr, String.data_append, String.length]
  by_cases h10 : n < 10
  · have hlen : (decDigits n).length = 1 := length_decDigitsAux_one n n h10
    have hdata' : (jsPadStart (decRepr n) 2 (digitChar 0)).data =
        digitChar 0 :: (decDigits n).map digitChar := by
      rw [hdata, hlen]
      rfl
    refine ⟨?_, ?_, ?_⟩
    · simp [hdata', hlen]
    · intro c hc
      rw [hdata'] at hc
      rcases List.mem_cons.mp hc with hc | hc
      · subst hc; exact digitChar_isDigit 0 (by omega)
      · exact decDigits_all_isDigit n c hc
    · rw [hdata', parseNatChars_cons_zero]
      exact parse_decDigits n
  · have hlen : (decDigits n).length = 2 :=
      length_decDigitsAux_two n n (Nat.le_refl n) (by omega) h
    have hdata' : (jsPadStart (decRepr n) 2 (digitChar 0)).data =
        (decDigits n).map digitChar := by
      rw [hdata, hlen]
      rfl
    refine ⟨?_, ?_, ?_⟩
    · simp [hdata', hlen]
    · intro c hc
      rw [hdata'] at hc
      exact decDigits_all_isDigit n c hc
    · rw [hdata']
      exact parse_decDigits n

/-- The four-digit year block of the inquiry number. -/
theorem year_spec (n : Nat) (h1 : 1000 ≤ n) (h2 : n < 10000) :
    (decRepr n).data.length = 4 ∧
    (∀ c ∈ (decRepr n).data, c.isDigit = true) ∧
    parseNatChars (decRepr n).data = n := by
  have hdata : (decRepr n).data = (decDigits n).map digitChar := rfl
  refine ⟨?_, ?_, ?_⟩
  · simp [hdata, length_decDigitsAux_four n n (Nat.le_refl n) h1 h2, decDigits]
  · intro c hc
    rw [hdata] at hc
    exact decDigits_all_isDigit n c hc
  · rw [hdata]
    exact parse_decDigits n

/-- Slicing facts for a list of the shape `YYYY MM DD - HH MM SS`. -/
theorem inquiry_slices (Y M D H Mi S l : List Char)
    (hl : l = Y ++ (M ++ (D ++ ([Char.ofNat 45] ++ (H ++ (Mi ++ S))))))
    (hYl : Y.length = 4) (hMl : M.length = 2) (hDl : D.length = 2)
    (hHl : H.length = 2) (hMil : Mi.length = 2) (hSl : S.length = 2) :
    l.take 4 = Y ∧ (l.drop 4).take 2 = M ∧ (l.drop 6).take 2 = D ∧
    (l.drop 9).take 2 = H ∧ (l.drop 11).take 2 = Mi ∧ l.drop 13 = S ∧
    l.length = 15 ∧ l.take 8 = (Y ++ M) ++ D ∧ (l.drop 8).take 1 = [Char.ofNat 45] ∧
    l.drop 9 = H ++ (Mi ++ S) := by
  have h4 : l.drop 4 = M ++ (D ++ ([Char.ofNat 45] ++ (H ++ (Mi ++ S)))) := by
    rw [hl]; exact List.drop_left' hYl
  have h6 : l.drop 6 = D ++ ([Char.ofNat 45] ++ (H ++ (Mi ++ S))) := by
    rw [show (6 : Nat) = 4 + 2 from rfl, ← List.drop_drop, h4]
    exact List.drop_left' hMl
  have hl8 : l = ((Y ++ M) ++ D) ++ ([Char.ofNat 45] ++ (H ++ (Mi ++ S))) := by
    rw [hl]; simp [List.append_assoc]
  have h8 : l.drop 8 = [Char.ofNat 45] ++ (H ++ (Mi ++ S)) := by
    rw [hl8]; exact List.drop_left' (by simp [hYl, hMl, hDl])
  have h9 : l.drop 9 = H ++ (Mi ++ S) := by
    rw [show (9 : Nat) = 8 + 1 from rfl, ← List.drop_drop, h8]
    exact List.drop_left' rfl
  have h11 : l.drop 11 = Mi ++ S := by
    rw [show (11 : Nat) = 9 + 2 from rfl, ← List.drop_drop, h9]
    exact List.drop_left' hHl
  have h13 : l.drop 13 = S := by
    rw [show (13 : Nat) = 9 + 4 from rfl, ← List.drop_drop, h9, ← List.append_assoc]
    exact List.drop_left' (by simp [hHl, hMil])
  refine ⟨?_, ?_, ?_, ?_, ?_, h13, ?_, ?_, ?_, h9⟩
  · rw [hl]; exact List.take_left' hYl
  · rw [h4]; exact List.take_left' hMl
  · rw [h6]; exact List.take_left' hDl
  · rw [h9]; exact List.take_left' hHl
  · rw [h11]; exact List.take_left' hMil
  · rw [hl]; simp [hYl, hMl, hDl, hHl, hMil, hSl]
  · rw [hl8]; exact List.take_left' (by simp [hYl, hMl, hDl])
  · rw [h8]; exact List.take_left' rfl

/-- The character data of the generated inquiry number, block by block. -/
theorem generateInquiryNumber_data (d : JSDate) :
    (generateInquiryNumber d).data =
      (decRepr d.getFullYear).data ++
        ((jsPadStart (decRepr (d.getMonth + 1)) 2 (digitChar 0)).data ++
          ((jsPadStart (decRepr d.getDate) 2 (digitChar 0)).data ++
            ([Char.ofNat 45] ++
              ((jsPadStart (decRepr d.getHours) 2 (digitChar 0)).data ++
                ((jsPadStart (decRepr d.getMinutes) 2 (digitChar 0)).data ++
                  (jsPadStart (decRepr d.getSeconds) 2 (digitChar 0)).data))))) := by
  have hdash : ("-" : String).data = [Char.ofNat 45] := by decide
  simp [generateInquiryNumber, String.data_append, hdash]

/-- C4: for every mount timestamp, the generated inquiry number matches
`^\d{8}-\d{6}$` and its eight date digits and six time digits
numerically equal the mount moment's local year (four digits), month,
day, hour, minute and second, each of the latter five zero-padded to
two digits. -/
theorem C4_inquiry_number_format (d : JSDate) (hd : ValidJSDate d) :
    inquiryFormatOk (generateInquiryNumber d) = true ∧
    parseNatChars ((generateInquiryNumber d).data.take 4) = d.getFullYear ∧
    parseNatChars (((generateInquiryNumber d).data.drop 4).take 2) = d.getMonth + 1 ∧
    parseNatChars (((generateInquiryNumber d).data.drop 6).take 2) = d.getDate ∧
    parseNatChars (((generateInquiryNumber d).data.drop 9).take 2) = d.getHours ∧
    parseNatChars (((generateInquiryNumber d).data.drop 11).take 2) = d.getMinutes ∧
    parseNatChars ((generateInquiryNumber d).data.drop 13) = d.getSeconds := by
  obtain ⟨hy1, hy2, hmo, hda1, hda2, hho, hmi, hse⟩ := hd
  obtain ⟨hYl, hYd, hYp⟩ := year_spec d.getFullYear hy1 hy2
  obtain ⟨hMl, hMd, hMp⟩ := pad2_spec (d.getMonth + 1) (by omega)
  obtain ⟨hDl, hDd, hDp⟩ := pad2_spec d.getDate (by omega)
  obtain ⟨hHl, hHd, hHp⟩ := pad2_spec d.getHours (by omega)
  obtain ⟨hMil, hMid, hMip⟩ := pad2_spec d.getMinutes (by omega)
  obtain ⟨hSl, hSd, hSp⟩ := pad2_spec d.getSeconds (by omega)
  obtain ⟨s4, s42, s62, s92, s112, s13, slen, s8, s81, s9⟩ :=
    inquiry_slices _ _ _ _ _ _ _ (generateInquiryNumber_data d) hYl hMl hDl hHl hMil hSl
  refine ⟨?_, ?_, ?_, ?_, ?_, ?_, ?_⟩
  · simp only [inquiryFormatOk, Bool.and_eq_true, decide_eq_true_eq, List.all_eq_true]
    refine ⟨⟨⟨slen, ?_⟩, s81⟩, ?_⟩
    · intro c hc
      rw [s8] at hc
      rcases List.mem_append.mp hc with hc | hc
      · rcases List.mem_append.mp hc with hc | hc
        · exact hYd c hc
        · exact hMd c hc
      · exact hDd c hc
    · intro c hc
      rw [s9] at hc
      rcases List.mem_append.mp hc with hc | hc
      · exact hHd c hc
      · rcases List.mem_append.mp hc with hc | hc
        · exact hMid c hc
        · exact hSd c hc
  · rw [s4]; exact hYp
  · rw [s42]; exact hMp
  · rw [s62]; exact hDp
  · rw [s92]; exact hHp
  · rw [s112]; exact hMip
  · rw [s13]; exact hSp

/-- Witness for C4 at the mount moment 2025-10-26 14:30:52. -/
theorem C4_inquiry_number_format_witness :
    ValidJSDate ⟨2025, 9, 26, 14, 30, 52⟩ ∧
    (inquiryFormatOk (generateInquiryNumber ⟨2025, 9, 26, 14, 30, 52⟩) = true ∧
      parseNatChars ((generateInquiryNumber ⟨2025, 9, 26, 14, 30, 52⟩).data.take 4) = 2025 ∧
      parseNatChars (((generateInquiryNumber ⟨2025, 9, 26, 14, 30, 52⟩).data.drop 4).take 2) = 10 ∧
      parseNatChars (((generateInquiryNumber ⟨2025, 9, 26, 14, 30, 52⟩).data.drop 6).take 2) = 26 ∧
      parseNatChars (((generateInquiryNumber ⟨2025, 9, 26, 14, 30, 52⟩).data.drop 9).take 2) = 14 ∧
      parseNatChars (((generateInquiryNumber ⟨2025, 9, 26, 14, 30, 52⟩).data.drop 11).take 2) = 30 ∧
      parseNatChars ((generateInquiryNumber ⟨2025, 9, 26, 14, 30, 52⟩).data.drop 13) = 52) :=
  ⟨by decide, C4_inquiry_number_format ⟨2025, 9, 26, 14, 30, 52⟩ (by decide)⟩

/-! ## The inquiry number is stable across re-renders (C5) -/

theorem step_inquiryNumber (s : ModalState) (e : ModalEvent) :
    (step s e).inquiryNumber = s.inquiryNumber := by
  cases e with
  | setName v => rfl
  | setPhone v => rfl
  | setCompany v => rfl
  | copyClick out => cases out <;> rfl
  | revertTimer => rfl

/-- C5: for every component instance and every sequence of re-renders
after the initial mount (including those caused by contact-field
edits), the inquiry number is generated exactly once at mount and every
subsequent render observes the same value. -/
theorem C5_inquiry_number_stable (mountTime : JSDate) (evs : List ModalEvent) :
    (runEvents mountTime evs).inquiryNumber = generateInquiryNumber mountTime := by
  suffices h : ∀ s : ModalState, (evs.foldl step s).inquiryNumber = s.inquiryNumber by
    simpa [runEvents, initialState] using h (initialState mountTime)
  induction evs with
  | nil => intro s; rfl
  | cons e evs ih =>
    intro s
    rw [List.foldl_cons, ih (step s e), step_inquiryNumber]

/-! ## Subject composition (C2, C10) -/

theorem jsOrOpt_eq_ite (a : Option String) (b : String) :
    jsOrOpt a b = if optTruthy a then a.getD "" else b := by
  cases a with
  | none => rfl
  | some s =>
    by_cases hs : s = ""
    · simp [jsOrOpt, optTruthy, hs]
    · simp [jsOrOpt, optTruthy, hs]

theorem jsOrOpt_empty (a : Option String) : jsOrOpt a "" = a.getD "" := by
  cases a with
  | none => rfl
  | some s =>
    by_cases hs : s = ""
    · simp [jsOrOpt, hs]
    · simp [jsOrOpt, hs]

/-- C2: if `subjectText` is present (supplied and non-empty, the
component's truthiness test), the composed subject is
`<effectiveTitle> <subjectText> #<inquiryNumber>` where the effective
title is `subjectTitle` when itself present, else the modal title;
otherwise the composed subject is the legacy `subject` value when
provided, else the empty string. -/
theorem C2_subject_composition (st sx sub : Option String) (title inq : String) :
    (∀ t, sx = some t → t ≠ "" →
      emailSubject st sx title sub inq =
        (if optTruthy st then st.getD "" else title) ++ " " ++ t ++ " #" ++ inq) ∧
    (optTruthy sx = false → emailSubject st sx title sub inq = sub.getD "") := by
  constructor
  · intro t hsx ht
    subst hsx
    have htr : optTruthy (some t) = true := by simp [optTruthy, ht]
    simp only [emailSubject, htr, if_pos, Option.getD_some, jsOrOpt_eq_ite]
  · intro hfalse
    simp only [emailSubject, hfalse, Bool.false_eq_true, if_neg, not_false_iff, jsOrOpt_empty]

/-- Witness for C2 with `subjectTitle="CAD"`, `subjectText="Teil X"`. -/
theorem C2_subject_composition_witness :
    emailSubject (some "CAD") (some "Teil X") "Angebot anfragen" none "20251026-143052" =
      "CAD Teil X #20251026-143052" := by
  have h := (C2_subject_composition (some "CAD") (some "Teil X") none "Angebot anfragen"
    "20251026-143052").1 "Teil X" rfl (by decide)
  simpa [optTruthy] using h

/-- C10: presence of the structured subject inputs is decided by string
truthiness: a supplied-but-empty `subjectText` falls back to the legacy
subject (or the empty string), not to `"<title>  #<inquiryNumber>"`, and
a supplied-but-empty `subjectTitle` is replaced by the modal title. -/
theorem C10_truthiness (st sub : Option String) (title inq : String) :
    emailSubject st (some "") title sub inq = sub.getD "" ∧
    emailSubject st (some "") title none inq ≠ title ++ "  #" ++ inq ∧
    (∀ t, t ≠ "" → emailSubject (some "") (some t) title sub inq =
      title ++ " " ++ t ++ " #" ++ inq) := by
  refine ⟨?_, ?_, ?_⟩
  · simp [emailSubject, optTruthy, jsOrOpt_empty]
  · intro h
    have hlen := congrArg String.length h
    have h3 : ("  #" : String).length = 3 := rfl
    have h0 : ("" : String).length = 0 := rfl
    simp [emailSubject, optTruthy, jsOrOpt, String.length_append, h0, h3] at hlen
    omega
  · intro t ht
    have htr : optTruthy (some t) = true := by simp [optTruthy, ht]
    simp [emailSubject, htr, jsOrOpt]

/-- Witness for C10 with a non-empty `subjectText` and empty `subjectTitle`. -/
theorem C10_truthiness_witness :
    emailSubject (some "") (some "X") "T" none "Q" = "T" ++ " " ++ "X" ++ " #" ++ "Q" :=
  (C10_truthiness (some "") none "T" "Q").2.2 "X" (by decide)

/-! ## Body composition (C6) -/

/-- C6: the composed body is the caller's template followed by the fixed
contact trailer, each field possibly empty; with template `"Hello"` and
all fields empty it is exactly `"Hello\n\nName: \nTelefon: \nFirma: "`. -/
theorem C6_body_composition (p : ModalProps) (s : ModalState) :
    emailBody p s =
      p.bodyWithoutContact ++ "\n\nName: " ++ s.contactName ++ "\nTelefon: " ++
        s.contactPhone ++ "\nFirma: " ++ s.contactCompany ∧
    (∀ inq : String,
      emailBody ⟨"T", "t@e.x", none, none, none, "Hello"⟩ ⟨"", "", "", false, inq⟩ =
        "Hello\n\nName: \nTelefon: \nFirma: ") :=
  ⟨rfl, fun _ => rfl⟩

/-! ## Backdrop containment (C9) -/

/-- C9: a click on the modal surface never reaches the backdrop handler
and never invokes `onClose`; a click on the backdrop outside the modal
surface invokes `onClose` exactly once. -/
theorem C9_backdrop_containment :
    overlayHandler ∉ handlersRun (bubblePath .modalSurface) ∧
    onCloseCalls (bubblePath .modalSurface) = 0 ∧
    onCloseCalls (bubblePath .backdrop) = 1 := by
  refine ⟨?_, rfl, rfl⟩
  intro h
  simp [handlersRun, bubblePath, modalSurfaceHandler, overlayHandler] at h

/-! ## The copy-feedback flag (C1, C8) -/

/-- C1 (divergence witness): on a first successful clipboard write —
`copySuccess` still `false` in the handler's closure — `handleCopyText`
queues `setCopySuccess(true)` but does NOT schedule the 2-second revert
timer, because the `if (copySuccess)` guard reads the stale flag. -/
theorem C1_no_revert_scheduled :
    handleCopyText false .apiWriteOk = .ok ⟨some true, false, []⟩ := rfl

/-- C8: the copy action never propagates an exception; on any failing
outcome the contact fields, the inquiry number are unchanged, the flag
never becomes true, and a thrown error is only logged. -/
theorem C8_copy_errors_absorbed (s : ModalState) (out : ClipboardOutcome) :
    (∃ r, handleCopyText s.copySuccess out = .ok r) ∧
    (copyFailed out = true →
      (step s (.copyClick out)).contactName = s.contactName ∧
      (step s (.copyClick out)).contactPhone = s.contactPhone ∧
      (step s (.copyClick out)).contactCompany = s.contactCompany ∧
      (step s (.copyClick out)).inquiryNumber = s.inquiryNumber ∧
      ((step s (.copyClick out)).copySuccess = true → s.copySuccess = true) ∧
      (∀ r, handleCopyText s.copySuccess out = .ok r → r.flagSet ≠ some true)) ∧
    (∀ m, (out = .apiWriteThrow m ∨ out = .execThrow m) →
      handleCopyText s.copySuccess out =
        .ok ⟨none, false, ["Copy to clipboard failed: " ++ m]⟩) := by
  refine ⟨?_, ?_, ?_⟩
  · cases out <;> exact ⟨_, rfl⟩
  · intro hfail
    cases out <;> simp_all [copyFailed, handleCopyText, copyAttempt, step]
  · intro m hm
    rcases hm with hm | hm <;> subst hm <;> rfl

/-- Witness for C8 at a concrete state and a rejected clipboard write. -/
theorem C8_copy_errors_absorbed_witness :
    copyFailed (.apiWriteThrow "NotAllowedError") = true ∧
    ((step ⟨"N", "P", "F", false, "Q"⟩ (.copyClick (.apiWriteThrow "NotAllowedError"))).contactName = "N" ∧
      (step ⟨"N", "P", "F", false, "Q"⟩ (.copyClick (.apiWriteThrow "NotAllowedError"))).contactPhone = "P" ∧
      (step ⟨"N", "P", "F", false, "Q"⟩ (.copyClick (.apiWriteThrow "NotAllowedError"))).contactCompany = "F" ∧
      (step ⟨"N", "P", "F", false, "Q"⟩ (.copyClick (.apiWriteThrow "NotAllowedError"))).inquiryNumber = "Q" ∧
      ((step ⟨"N", "P", "F", false, "Q"⟩ (.copyClick (.apiWriteThrow "NotAllowedError"))).copySuccess = true →
        (false : Bool) = true) ∧
      (∀ r, handleCopyText false (.apiWriteThrow "NotAllowedError") = .ok r → r.flagSet ≠ some true)) :=
  ⟨rfl, (C8_copy_errors_absorbed ⟨"N", "P", "F", false, "Q"⟩ (.apiWriteThrow "NotAllowedError")).2.1 rfl⟩

/-! ## The mailto URI (C3) -/

theorem encode_foldr_acc (l acc : List Char) :
    l.foldr (fun c a => encodeChar c ++ a) acc =
      l.foldr (fun c a => encodeChar c ++ a) [] ++ acc := by
  induction l with
  | nil => simp
  | cons c l ih => simp [List.foldr_cons, ih, List.append_assoc]

theorem encodeURIComponent_append (a b : String) :
    encodeURIComponent (a ++ b) = encodeURIComponent a ++ encodeURIComponent b := by
  apply String.ext
  show (a ++ b).data.foldr (fun c acc => encodeChar c ++ acc) [] =
    a.data.foldr (fun c acc => encodeChar c ++ acc) [] ++
      b.data.foldr (fun c acc => encodeChar c ++ acc) []
  rw [String.data_append, List.foldr_append, encode_foldr_acc]

/-- C3: the mail-client URI is
`"mailto:" ++ emailTo ++ "?subject=" ++ E(subject) ++ "&body=" ++ E(body)`
with `emailTo` inserted verbatim and `E` the standard URI component
encoding, which acts character by character and sends a space to `%20`
and a newline to `%0A`. -/
theorem C3_mailto_uri (p : ModalProps) (s : ModalState) :
    mailtoLink p s =
      "mailto:" ++ p.emailTo ++ "?subject=" ++ encodeURIComponent (emailSubjectOf p s) ++
        "&body=" ++ encodeURIComponent (emailBody p s) ∧
    (∀ a b : String,
      encodeURIComponent (a ++ b) = encodeURIComponent a ++ encodeURIComponent b) ∧
    encodeURIComponent " " = "%20" ∧
    encodeURIComponent "\n" = "%0A" :=
  ⟨rfl, encodeURIComponent_append, by decide, by decide⟩

/-! ## Clipboard payload round-trip (C7) -/

theorem splitAtBlank_cons_ne (c : Char) (hc : c ≠ Char.ofNat 10) (l : List Char) :
    splitAtBlank (c :: l) = (splitAtBlank l).map fun pr => (c :: pr.1, pr.2) := by
  simp [splitAtBlank, hc]

theorem splitAtBlank_append (l : List Char) (hl : ∀ c ∈ l, c ≠ Char.ofNat 10)
    (rest : List Char) :
    splitAtBlank (l ++ rest) = (splitAtBlank rest).map fun pr => (l ++ pr.1, pr.2) := by
  induction l with
  | nil =>
    rw [List.nil_append]
    cases splitAtBlank rest <;> simp
  | cons c l ih =>
    have hc : c ≠ Char.ofNat 10 := hl c (by simp)
    rw [List.cons_append, splitAtBlank_cons_ne c hc, ih (fun x hx => hl x (by simp [hx]))]
    cases splitAtBlank rest <;> simp

theorem splitAtBlank_nl_cons (l rest : List Char) (hne : l ≠ [])
    (hl : ∀ c ∈ l, c ≠ Char.ofNat 10) :
    splitAtBlank (Char.ofNat 10 :: (l ++ rest)) =
      (splitAtBlank rest).map fun pr => ((Char.ofNat 10 :: l) ++ pr.1, pr.2) := by
  cases l with
  | nil => exact absurd rfl hne
  | cons c l' =>
    have hc : c ≠ Char.ofNat 10 := hl c (by simp)
    have hstep : splitAtBlank (Char.ofNat 10 :: (c :: l' ++ rest)) =
        (splitAtBlank (c :: l' ++ rest)).map fun pr => (Char.ofNat 10 :: pr.1, pr.2) := by
      simp [splitAtBlank, hc]
    rw [hstep, splitAtBlank_append (c :: l') hl rest]
    cases splitAtBlank rest <;> simp

theorem splitAtBlank_blank (rest : List Char) :
    splitAtBlank (Char.ofNat 10 :: Char.ofNat 10 :: rest) = some ([], rest) := by
  simp [splitAtBlank]

theorem splitLines_nonl (l : List Char) (hl : ∀ c ∈ l, c ≠ Char.ofNat 10) :
    splitLines l = [l] := by
  induction l with
  | nil => rfl
  | cons c l ih =>
    have hc : c ≠ Char.ofNat 10 := hl c (by simp)
    simp [splitLines, hc, ih (fun x hx => hl x (by simp [hx]))]

theorem splitLines_append_nl (l r : List Char) (hl : ∀ c ∈ l, c ≠ Char.ofNat 10) :
    splitLines (l ++ Char.ofNat 10 :: r) = l :: splitLines r := by
  induction l with
  | nil => simp [splitLines]
  | cons c l ih =>
    have hc : c ≠ Char.ofNat 10 := hl c (by simp)
    simp [splitLines, hc, ih (fun x hx => hl x (by simp [hx]))]

theorem stripPre_append (p l : List Char) : stripPre p (p ++ l) = some l := by
  induction p with
  | nil => rfl
  | cons c p ih => simp [stripPre, ih]

theorem noNewline_mem (s : String) (h : noNewline s = true) :
    ∀ c ∈ s.data, c ≠ Char.ofNat 10 := by
  simp only [noNewline, List.all_eq_true, decide_eq_true_eq] at h
  exact h

/-- C7 counterexample: an `emailTo` containing a blank line (the prop is
used verbatim and unvalidated) makes the clipboard payload unparseable:
splitting at the first blank line does not reproduce the recipient and
subject. -/
theorem C7_counterexample :
    parseClipboard
        (fullEmailText ⟨"T", "a\n\nb", some "S", none, none, "B"⟩ ⟨"", "", "", false, "Q"⟩) ≠
      some ((⟨"T", "a\n\nb", some "S", none, none, "B"⟩ : ModalProps).emailTo,
        emailSubjectOf ⟨"T", "a\n\nb", some "S", none, none, "B"⟩ ⟨"", "", "", false, "Q"⟩) := by
  decide

/-- C7 (amended): the clipboard text is exactly
`"An: " ++ emailTo ++ "\nBetreff: " ++ subject ++ "\n\n" ++ body`, and —
provided `emailTo` and the composed subject contain no newline —
splitting it at the first blank line reproduces the exact `emailTo` and
composed subject in the two header lines. -/
theorem C7_clipboard_payload (p : ModalProps) (s : ModalState)
    (h1 : noNewline p.emailTo = true) (h2 : noNewline (emailSubjectOf p s) = true) :
    fullEmailText p s =
      "An: " ++ p.emailTo ++ "\nBetreff: " ++ emailSubjectOf p s ++ "\n\n" ++ emailBody p s ∧
    parseClipboard (fullEmailText p s) = some (p.emailTo, emailSubjectOf p s) := by
  refine ⟨rfl, ?_⟩
  have he := noNewline_mem _ h1
  have hs := noNewline_mem _ h2
  have hAn : ∀ c ∈ ("An: " : String).data, c ≠ Char.ofNat 10 := by decide
  have hBe : ∀ c ∈ ("Betreff: " : String).data, c ≠ Char.ofNat 10 := by decide
  have hA : ∀ c ∈ ("An: ".data ++ p.emailTo.data), c ≠ Char.ofNat 10 := by
    intro c hc
    rcases List.mem_append.mp hc with hc | hc
    · exact hAn c hc
    · exact he c hc
  have hB : ∀ c ∈ ("Betreff: ".data ++ (emailSubjectOf p s).data), c ≠ Char.ofNat 10 := by
    intro c hc
    rcases List.mem_append.mp hc with hc | hc
    · exact hBe c hc
    · exact hs c hc
  have hBne : ("Betreff: ".data ++ (emailSubjectOf p s).data) ≠ [] := by
    intro h
    have := congrArg List.length h
    simp at this
  have hdata : (fullEmailText p s).data =
      ("An: ".data ++ p.emailTo.data) ++
        (Char.ofNat 10 :: (("Betreff: ".data ++ (emailSubjectOf p s).data) ++
          (Char.ofNat 10 :: Char.ofNat 10 :: (emailBody p s).data))) := by
    have e1 : ("\nBetreff: " : String).data = Char.ofNat 10 :: "Betreff: ".data := by decide
    have e2 : ("\n\n" : String).data = [Char.ofNat 10, Char.ofNat 10] := by decide
    simp [fullEmailText, String.data_append, e1, e2, List.append_assoc]
  have key : splitAtBlank (fullEmailText p s).data =
      some (("An: ".data ++ p.emailTo.data) ++
          (Char.ofNat 10 :: ("Betreff: ".data ++ (emailSubjectOf p s).data)),
        (emailBody p s).data) := by
    rw [hdata, splitAtBlank_append _ hA, splitAtBlank_nl_cons _ _ hBne hB, splitAtBlank_blank]
    simp
  have hlines : splitLines (("An: ".data ++ p.emailTo.data) ++
      (Char.ofNat 10 :: ("Betreff: ".data ++ (emailSubjectOf p s).data))) =
      ["An: ".data ++ p.emailTo.data, "Betreff: ".data ++ (emailSubjectOf p s).data] := by
    rw [splitLines_append_nl _ _ hA, splitLines_nonl _ hB]
  simp only [parseClipboard, key, hlines, stripPre_append]

/-- Witness for C7's amended statement at a concrete configuration. -/
theorem C7_clipboard_payload_witness :
    noNewline (⟨"T", "a@b.c", some "S", none, none, "B"⟩ : ModalProps).emailTo = true ∧
    noNewline (emailSubjectOf ⟨"T", "a@b.c", some "S", none, none, "B"⟩
      ⟨"", "", "", false, "Q"⟩) = true ∧
    parseClipboard (fullEmailText ⟨"T", "a@b.c", some "S", none, none, "B"⟩
      ⟨"", "", "", false, "Q"⟩) = some ("a@b.c", "S") :=
  ⟨by decide, by decide,
    (C7_clipboard_payload ⟨"T", "a@b.c", some "S", none, none, "B"⟩ ⟨"", "", "", false, "Q"⟩
      (by decide) (by decide)).2⟩

end EmailModal
